import Mathlib

/-!
Verification of the gateway-bridge server of `openclaw-realtime-voice`
(shallow embedding of `src/unnamed/part_001`).

The server keeps its state in JavaScript `Map`s keyed by strings.  We embed a
`Map` as an association list `List (String × α)` with JS-`Map` semantics:
`lookupA` finds the binding, `setA` replaces in place or appends (preserving
insertion order, as `Map.set` does), `eraseA` removes the binding, and
`lastKey` is `Array.from(m.keys()).pop()`.

Timers are modelled by explicit events.  A `setTimeout` handle that every
deleting code path also clears is represented by membership in the owning map:
the timer can still fire exactly when its entry is still present.
-/

namespace OpenClawVoice

/-- JS `Map.get`: the value bound to `k`, if any. -/
def lookupA {α : Type} : List (String × α) → String → Option α
  | [], _ => none
  | (k', v) :: t, k => if k' = k then some v else lookupA t k

/-- JS `Map.set`: replace the binding in place, or append a fresh one. -/
def setA {α : Type} : List (String × α) → String → α → List (String × α)
  | [], k, v => [(k, v)]
  | (k', v') :: t, k, v =>
    if k' = k then (k, v) :: t else (k', v') :: setA t k v

/-- JS `Map.delete`: remove the binding for `k`. -/
def eraseA {α : Type} (m : List (String × α)) (k : String) : List (String × α) :=
  m.filter (fun p => p.1 != k)

/-- `Array.from(m.keys()).pop()`: the most recently inserted key. -/
def lastKey {α : Type} (m : List (String × α)) : Option String :=
  (m.map Prod.fst).getLast?

/-- JS `Map.delete` on a map represented as a plain key list
(`pendingRequests` is embedded as its key set; the stored continuations are
tracked through the `completions` log instead). -/
def deleteKey (l : List String) (k : String) : List String :=
  l.filter (fun x => x != k)

/-- Number of completion-log entries recorded for one correlation id. -/
def completionsCount (cs : List (String × α)) (id : String) : Nat :=
  (cs.filter (fun c => c.1 == id)).length

-- ── Configuration constants (part_001, lines 28, 68–69, 81–82) ──────────────

/-- `const MAX_BUFFER_SIZE = 50`. -/
def MAX_BUFFER_SIZE : Nat := 50

/-- `const GATEWAY_TIMEOUT = 30000` (30-second response window). -/
def GATEWAY_TIMEOUT : Nat := 30000

/-- `const RECONNECT_DELAY = 5000`. -/
def RECONNECT_DELAY : Nat := 5000

/-- `const RATE_LIMIT_MAX = 30`. -/
def RATE_LIMIT_MAX : Nat := 30

/-- `const RATE_LIMIT_WINDOW = 60000`. -/
def RATE_LIMIT_WINDOW : Nat := 60000

/-- `ws` readyState `CONNECTING`. -/
def WS_CONNECTING : Nat := 0

/-- `ws` readyState `OPEN`. -/
def WS_OPEN : Nat := 1

-- ── Frames and buffered results ─────────────────────────────────────────────

/-- An outbound client-facing frame, e.g. `{type:'result', taskId, text,
error?}`; a missing `error` field is embedded as `error := false`. -/
structure ResultFrame where
  rtype : String
  taskId : Option String
  text : String
  error : Bool
deriving DecidableEq, Repr

/-- One entry of a per-session delivery buffer: `{ ...result, timestamp }`
(part_001, line 37). -/
structure StoredResult where
  result : ResultFrame
  timestamp : Nat
deriving DecidableEq, Repr

/-- Core of `bufferResult` on one session's array (part_001, lines 37–39):
`buf.push(entry); if (buf.length > MAX_BUFFER_SIZE) buf.shift()`. -/
def bufPush (buf : List StoredResult) (x : StoredResult) : List StoredResult :=
  if MAX_BUFFER_SIZE < (buf ++ [x]).length then (buf ++ [x]).tail else buf ++ [x]

/-- `bufferResult(sessionId, result)` (part_001, lines 31–40): get-or-create
the session's array, push the stamped entry, shift on overflow. -/
def bufferResult (buffers : List (String × List StoredResult))
    (sessionId : String) (r : ResultFrame) (now : Nat) :
    List (String × List StoredResult) :=
  setA buffers sessionId (bufPush ((lookupA buffers sessionId).getD []) ⟨r, now⟩)

/-- The `/api/push/buffered` drain (part_001, lines 714–716):
`const results = bufferedResults.get(sessionId) || [];
bufferedResults.delete(sessionId); res.json({ results })`. -/
def drainBuffered (buffers : List (String × List StoredResult))
    (sessionId : String) :
    List StoredResult × List (String × List StoredResult) :=
  ((lookupA buffers sessionId).getD [], eraseA buffers sessionId)

/-- Fold a sequence of enqueues into one session's buffer. -/
def bufFold (buf : List StoredResult) (xs : List StoredResult) : List StoredResult :=
  xs.foldl bufPush buf

/-- Enqueue a sequence of (frame, time) results for one session through
`bufferResult`. -/
def enqueueList (buffers : List (String × List StoredResult)) (sessionId : String)
    (xs : List (ResultFrame × Nat)) : List (String × List StoredResult) :=
  xs.foldl (fun m x => bufferResult m sessionId x.1 x.2) buffers

-- ── Rate limiter (part_001, lines 111–115, 445–473) ─────────────────────────

/-- One `rateLimitMap` entry: `{ count, resetTime }`. -/
structure RateLimitEntry where
  count : Nat
  resetTime : Nat
deriving DecidableEq, Repr

/-- Outcome of `rateLimitMiddleware`: pass to `next()`, or answer
HTTP 429 with a retry-after delay (seconds). -/
inductive RateDecision where
  | next
  | tooMany (retryAfter : Nat)
deriving DecidableEq, Repr

/-- `rateLimitMiddleware` (part_001, lines 445–473): fixed window per source
ip.  A missing or expired entry is replaced by a fresh window of count 1 and
admitted; a full window answers 429; otherwise the count increments. -/
def rateLimitMiddleware (m : List (String × RateLimitEntry)) (ip : String)
    (now : Nat) : RateDecision × List (String × RateLimitEntry) :=
  match lookupA m ip with
  | none => (.next, setA m ip ⟨1, now + RATE_LIMIT_WINDOW⟩)
  | some entry =>
    if entry.resetTime < now then
      (.next, setA m ip ⟨1, now + RATE_LIMIT_WINDOW⟩)
    else if RATE_LIMIT_MAX ≤ entry.count then
      (.tooMany ((entry.resetTime - now + 999) / 1000), m)
    else
      (.next, setA m ip ⟨entry.count + 1, entry.resetTime⟩)

/-- Process a sequence of requests from one source ip at the given times,
collecting the middleware's decisions. -/
def runRate (m : List (String × RateLimitEntry)) (ip : String) :
    List Nat → List RateDecision × List (String × RateLimitEntry)
  | [] => ([], m)
  | t :: ts =>
    let d := rateLimitMiddleware m ip t
    let r := runRate d.2 ip ts
    (d.1 :: r.1, r.2)

-- ── Run tracker / session registry / correlator state ───────────────────────

/-- An `activeRuns` entry (part_001, lines 103–107). -/
structure ActiveRun where
  taskId : String
  sessionId : String
  text : String
deriving DecidableEq, Repr

/-- The observable settlement of a `PendingRequest`'s promise.  The resolved
payload value is irrelevant to the claims and is not recorded. -/
inductive Completion where
  | resolved
  | rejected (msg : String)
deriving DecidableEq, Repr

/-- The `stream` discriminator of an `agent` event. -/
inductive StreamKind where
  | assistant
  | lifecycle
  | otherStream
deriving DecidableEq, Repr

/-- Payload of a gateway `agent` event (part_001, line 271):
`{ runId, stream, data, sessionKey }`; `freshTaskId` stands for the
`subtask_...` id generated when an ad-hoc run is synthesized. -/
structure AgentPayload where
  runId : String
  stream : StreamKind
  dataText : Option String
  dataPhase : Option String
  sessionKey : Option String
  freshTaskId : String
deriving DecidableEq, Repr

/-- The server's mutable maps, plus logs of its observable effects:
`sentFrames` records every `clientWs.send` of a client-facing frame, and
`completions` records every resolve/reject of a pending request's promise. -/
structure ServerState where
  sessions : List (String × Bool)
  pendingRequests : List String
  activeRuns : List (String × ActiveRun)
  bufferedResults : List (String × List StoredResult)
  sentFrames : List (String × ResultFrame)
  completions : List (String × Completion)
  sessionKeyBase : String
  sessionKeySuffix : Nat
deriving DecidableEq, Repr

/-- `getSessionKey()` (part_001, lines 73–77). -/
def getSessionKey (base : String) (suffix : Nat) : String :=
  if suffix = 0 then base else base ++ ":" ++ toString suffix

/-- The stream-dispatch body of the `agent` branch once a run is at hand
(part_001, lines 294–320): an `assistant` event with truthy `data.text`
overwrites the accumulated text; a `lifecycle` `end` event sends the final
result frame to the owning session's live socket, or buffers it (and
attempts a push notification, a side effect outside this model) when the
socket is absent or not open, then deletes the run. -/
def handleAgentRun (st : ServerState) (now : Nat) (p : AgentPayload)
    (run : ActiveRun) : ServerState :=
  if p.stream = .assistant ∧ p.dataText.getD "" ≠ "" then
    {st with activeRuns := setA st.activeRuns p.runId {run with text := p.dataText.getD ""}}
  else if p.stream = .lifecycle ∧ p.dataPhase = some "end" then
    let text := if run.text = "" then "Task completed (no text response)" else run.text
    let frame : ResultFrame := ⟨"result", some run.taskId, text, false⟩
    let st1 :=
      match lookupA st.sessions run.sessionId with
      | some true => {st with sentFrames := st.sentFrames ++ [(run.sessionId, frame)]}
      | _ => {st with bufferedResults := bufferResult st.bufferedResults run.sessionId frame now}
    {st1 with activeRuns := eraseA st1.activeRuns p.runId}
  else st

/-- The `agent` event branch of `handleGatewayMessage` (part_001, lines
270–322): a falsy `runId` returns; an untracked run whose `sessionKey`
matches the local key on a lifecycle `start` is synthesized ad hoc and
attached to the most recently registered session. -/
def handleAgent (st : ServerState) (now : Nat) (p : AgentPayload) : ServerState :=
  if p.runId = "" then st
  else
    match lookupA st.activeRuns p.runId with
    | some run => handleAgentRun st now p run
    | none =>
      match p.sessionKey with
      | some sk =>
        if sk = "agent:main:" ++ (getSessionKey st.sessionKeyBase st.sessionKeySuffix).toLower
            ∧ p.stream = .lifecycle ∧ p.dataPhase = some "start" then
          match lastKey st.sessions with
          | some sid =>
            handleAgentRun
              {st with activeRuns := setA st.activeRuns p.runId ⟨p.freshTaskId, sid, ""⟩}
              now p ⟨p.freshTaskId, sid, ""⟩
          | none => st
        else st
      | none => st

/-- The response branch of `handleGatewayMessage` (part_001, lines 246–267):
on `message.id && pendingRequests.has(message.id)`, clear the timer and
remove the entry, then reject on an error field, else re-key `activeRuns`
from the request id to a truthy `result.runId` and resolve. -/
def handleResponse (st : ServerState) (id : String) (error : Option String)
    (runId : Option String) : ServerState :=
  if id ≠ "" ∧ id ∈ st.pendingRequests then
    let st1 := {st with pendingRequests := deleteKey st.pendingRequests id}
    match error with
    | some e => {st1 with completions := st1.completions ++ [(id, .rejected e)]}
    | none =>
      let st2 :=
        match runId with
        | some rid =>
          if rid = "" then st1
          else
            match lookupA st1.activeRuns id with
            | some run => {st1 with activeRuns := setA (eraseA st1.activeRuns id) rid run}
            | none => st1
        | none => st1
      {st2 with completions := st2.completions ++ [(id, .resolved)]}
  else st

/-- The request-timeout handler of `sendToGateway` (part_001, lines 377–380):
`pendingRequests.delete(id); reject(new Error('Gateway request timeout'))`.
The timer can fire only while still armed, and every code path that removes
the entry also clears the timer, so armed is exactly membership in the map. -/
def timeoutFire (st : ServerState) (id : String) : ServerState :=
  if id ∈ st.pendingRequests then
    {st with pendingRequests := deleteKey st.pendingRequests id,
             completions := st.completions ++ [(id, .rejected "Gateway request timeout")]}
  else st

/-- The synchronous-send `catch` of `sendToGateway` (part_001, lines 414–418):
clear the timer, remove the entry, reject with the thrown error. -/
def sendCatchReject (st : ServerState) (id : String) (msg : String) : ServerState :=
  if id ∈ st.pendingRequests then
    {st with pendingRequests := deleteKey st.pendingRequests id,
             completions := st.completions ++ [(id, .rejected msg)]}
  else st

/-- The pending-request cleanup of `stop()` (part_001, lines 834–839): reject
every outstanding request with `'Server shutting down'` and clear the map. -/
def stopPending (st : ServerState) : ServerState :=
  {st with
    completions := st.completions ++
      st.pendingRequests.map (fun i => (i, Completion.rejected "Server shutting down")),
    pendingRequests := []}

/-- The events that can settle pending requests: a gateway response frame, an
expiry-timer firing, a synchronous send failure, and process shutdown. -/
inductive CorrEvent where
  | response (id : String) (error : Option String) (runId : Option String)
  | timerExpire (id : String)
  | sendThrow (id : String) (msg : String)
  | stopServer
deriving DecidableEq, Repr

/-- Dispatch one correlator-relevant event. -/
def corrStep (st : ServerState) (e : CorrEvent) : ServerState :=
  match e with
  | .response id err rid => handleResponse st id err rid
  | .timerExpire id => timeoutFire st id
  | .sendThrow id msg => sendCatchReject st id msg
  | .stopServer => stopPending st

/-- Run a sequence of correlator events. -/
def corrRun (st : ServerState) (es : List CorrEvent) : ServerState :=
  es.foldl corrStep st

/-- Completions recorded for one correlation id in a server state. -/
def completionsFor (st : ServerState) (id : String) : Nat :=
  completionsCount st.completions id

/-- The `catch` branch of the `/api/send` handler (part_001, lines 670–683):
delete the run, then send a `{type:'result', taskId, text, error:true}` frame
— but only if the owning session has a live open socket; otherwise nothing
further happens (the error result is neither buffered nor pushed). -/
def apiSendCatch (st : ServerState) (requestId taskId sessionId errMsg : String) :
    ServerState :=
  let st1 := {st with activeRuns := eraseA st.activeRuns requestId}
  match lookupA st1.sessions sessionId with
  | some true =>
    {st1 with sentFrames := st1.sentFrames ++
      [(sessionId, ⟨"result", some taskId, "Error: " ++ errMsg ++ ". Please try again.", true⟩)]}
  | _ => st1

/-- The registration performed by the `/api/send` handler before the gateway
call (part_001, line 662): `activeRuns.set(requestId, { taskId, sessionId, text: '' })`. -/
def apiSendRegister (st : ServerState) (requestId taskId sessionId : String) :
    ServerState :=
  {st with activeRuns := setA st.activeRuns requestId ⟨taskId, sessionId, ""⟩}

/-- Pure effect of one assistant snapshot on the accumulated text:
`if (data?.text) run.text = data.text` — a truthy (non-empty) snapshot
overwrites, an empty one is ignored. -/
def assistantStep (t snap : String) : String :=
  if snap = "" then t else snap

/-- Feed a sequence of `assistant` stream events for one run id through
`handleAgent`. -/
def processAssistantEvents (st : ServerState) (now : Nat) (rid : String)
    (ts : List String) : ServerState :=
  ts.foldl (fun s t => handleAgent s now ⟨rid, .assistant, some t, none, none, ""⟩) st

-- ── Gateway link connection state (part_001, lines 85–202) ──────────────────

/-- The module-level connection state: `gatewayWs` (by its readyState, `none`
for `null`), `isConnecting`, and the number of scheduled reconnect timers
(`reconnectTimer` holds at most one handle; we count to check exactly that). -/
structure LinkState where
  gatewayWs : Option Nat
  isConnecting : Bool
  reconnectTimers : Nat
deriving DecidableEq, Repr

/-- `scheduleReconnect()` (part_001, lines 194–202): a no-op while a reconnect
timer is already pending, else schedule one. -/
def scheduleReconnect (st : LinkState) : LinkState :=
  if st.reconnectTimers ≠ 0 then st
  else {st with reconnectTimers := st.reconnectTimers + 1}

/-- `connectToGateway()` (part_001, lines 135–192): re-entrant guard on
`isConnecting` or an already-open socket; the constructor either starts a
connecting socket or throws, in which case a reconnect is scheduled. -/
def connectToGateway (st : LinkState) (ctorThrows : Bool) : LinkState :=
  if st.isConnecting ∨ st.gatewayWs = some WS_OPEN then st
  else if ctorThrows then scheduleReconnect {st with isConnecting := false}
  else {st with isConnecting := true, gatewayWs := some WS_CONNECTING}

/-- Events acting on the link state: an explicit `connectToGateway()` call,
the socket's `open`, `error` and `close` callbacks, and the reconnect timer
firing (which can only happen while a timer is pending). -/
inductive LinkEvent where
  | connectCall (ctorThrows : Bool)
  | wsOpen
  | wsError
  | wsClose
  | timerFire (ctorThrows : Bool)
deriving DecidableEq, Repr

/-- One link-state transition (part_001, lines 150–201). -/
def linkStep (st : LinkState) (e : LinkEvent) : LinkState :=
  match e with
  | .connectCall b => connectToGateway st b
  | .wsOpen => {st with gatewayWs := some WS_OPEN, isConnecting := false, reconnectTimers := 0}
  | .wsError => {st with isConnecting := false}
  | .wsClose => scheduleReconnect {st with gatewayWs := none, isConnecting := false}
  | .timerFire b =>
    if st.reconnectTimers = 0 then st
    else connectToGateway {st with reconnectTimers := st.reconnectTimers - 1} b

/-- Run a sequence of link events. -/
def linkRun (st : LinkState) (es : List LinkEvent) : LinkState :=
  es.foldl linkStep st

-- ── Send guard versus the spec's handshake state machine ────────────────────

/-- The connection guard of `sendToGateway` (part_001, lines 368–371):
`if (!gatewayWs || gatewayWs.readyState !== WebSocket.OPEN) reject(new
Error('Gateway not connected'))`. -/
def sendConnGuardRejects (gatewayWs : Option Nat) : Bool :=
  match gatewayWs with
  | none => true
  | some rs => rs != WS_OPEN

/-- The spec's Gateway Link handshake phases. -/
inductive LinkPhase where
  | Disconnected
  | Connecting
  | AwaitingChallenge
  | Connected
deriving DecidableEq, Repr

/-- Modelled from the spec: the state machine `Disconnected --start/timer-->
Connecting --transport open--> AwaitingChallenge --challenge/hello-ok-->
Connected` maps each phase to the transport handle the code holds there: no
socket while Disconnected, a CONNECTING socket while Connecting, and an OPEN
socket from the transport-open instant onward — in AwaitingChallenge as well
as in Connected, since the code keeps no flag for hello-ok completion. -/
def phaseWs : LinkPhase → Option Nat
  | .Disconnected => none
  | .Connecting => some WS_CONNECTING
  | .AwaitingChallenge => some WS_OPEN
  | .Connected => some WS_OPEN

-- ── Concrete states used by counterexamples and witnesses ───────────────────

/-- A server state with one registered run for a session that has no live
transport, about to hit the `/api/send` failure branch. -/
def c1State : ServerState :=
  { sessions := []
    pendingRequests := []
    activeRuns := [("req_1", ⟨"task_1", "sess_1", ""⟩)]
    bufferedResults := []
    sentFrames := []
    completions := []
    sessionKeyBase := "realtime-voice:ET"
    sessionKeySuffix := 0 }

/-- A server state with one tracked run, used to feed assistant snapshots. -/
def c8State : ServerState :=
  { sessions := [("sess_1", true)]
    pendingRequests := []
    activeRuns := [("u1", ⟨"task_1", "sess_1", ""⟩)]
    bufferedResults := []
    sentFrames := []
    completions := []
    sessionKeyBase := "realtime-voice:ET"
    sessionKeySuffix := 0 }

/-- A server state with one pending request and its registered run, one live
session, as left by an admitted `/api/send`. -/
def c7State : ServerState :=
  { sessions := [("sess_1", true)]
    pendingRequests := ["req_1"]
    activeRuns := [("req_1", ⟨"task_1", "sess_1", ""⟩)]
    bufferedResults := []
    sentFrames := []
    completions := []
    sessionKeyBase := "realtime-voice:ET"
    sessionKeySuffix := 0 }

-- ── Association-list map lemmas ─────────────────────────────────────────────

theorem lookupA_setA_self {α : Type} (m : List (String × α)) (k : String) (v : α) :
    lookupA (setA m k v) k = some v := by
  induction m with
  | nil => simp [setA, lookupA]
  | cons p t ih =>
    obtain ⟨k', v'⟩ := p
    by_cases h : k' = k
    · simp [setA, h, lookupA]
    · simp [setA, h, lookupA, ih]

theorem lookupA_setA_ne {α : Type} (m : List (String × α)) {k k2 : String} (v : α)
    (h : k ≠ k2) : lookupA (setA m k v) k2 = lookupA m k2 := by
  induction m with
  | nil =>
    show lookupA [(k, v)] k2 = none
    simp only [lookupA, if_neg h]
  | cons p t ih =>
    obtain ⟨k', v'⟩ := p
    show lookupA (if k' = k then (k, v) :: t else (k', v') :: setA t k v) k2 = _
    by_cases hk : k' = k
    · rw [if_pos hk]
      show (if k = k2 then some v else lookupA t k2) = if k' = k2 then some v' else lookupA t k2
      rw [if_neg h, if_neg (fun hh : k' = k2 => h (hk ▸ hh))]
    · rw [if_neg hk]
      show (if k' = k2 then some v' else lookupA (setA t k v) k2)
          = if k' = k2 then some v' else lookupA t k2
      by_cases h2 : k' = k2
      · rw [if_pos h2, if_pos h2]
      · rw [if_neg h2, if_neg h2, ih]

theorem lookupA_eraseA_self {α : Type} (m : List (String × α)) (k : String) :
    lookupA (eraseA m k) k = none := by
  induction m with
  | nil => rfl
  | cons p t ih =>
    obtain ⟨k', v'⟩ := p
    simp only [eraseA, List.filter_cons] at *
    by_cases h : k' = k
    · rw [if_neg (by simp [h])]
      exact ih
    · rw [if_pos (by simp [h])]
      show (if k' = k then some v' else lookupA (List.filter (fun p => p.1 != k) t) k) = none
      rw [if_neg h]
      exact ih

theorem lookupA_eraseA_ne {α : Type} (m : List (String × α)) {k k2 : String}
    (h : k2 ≠ k) : lookupA (eraseA m k) k2 = lookupA m k2 := by
  induction m with
  | nil => rfl
  | cons p t ih =>
    obtain ⟨k', v'⟩ := p
    simp only [eraseA, List.filter_cons] at *
    by_cases hk : k' = k
    · rw [if_neg (by simp [hk])]
      rw [ih]
      show lookupA t k2 = if k' = k2 then some v' else lookupA t k2
      rw [if_neg (fun hh : k' = k2 => h ((hh ▸ hk : k2 = k)))]
    · rw [if_pos (by simp [hk])]
      show (if k' = k2 then some v' else lookupA (List.filter (fun p => p.1 != k) t) k2)
          = if k' = k2 then some v' else lookupA t k2
      by_cases h2 : k' = k2
      · rw [if_pos h2, if_pos h2]
      · rw [if_neg h2, if_neg h2, ih]

-- ── Key-list (pendingRequests) lemmas ───────────────────────────────────────

theorem not_mem_deleteKey (l : List String) (k : String) : k ∉ deleteKey l k := by
  intro h
  have := List.of_mem_filter h
  simp at this

theorem count_deleteKey_self (l : List String) (k : String) :
    (deleteKey l k).count k = 0 :=
  List.count_eq_zero.mpr (not_mem_deleteKey l k)

theorem count_deleteKey_ne (l : List String) {x k : String} (h : x ≠ k) :
    (deleteKey l k).count x = l.count x := by
  induction l with
  | nil => rfl
  | cons a t ih =>
    simp only [deleteKey, List.filter_cons] at *
    by_cases ha : a = k
    · rw [if_neg (by simp [ha])]
      rw [ih, List.count_cons]
      simp [ha, Ne.symm h]
    · rw [if_pos (by simp [ha])]
      rw [List.count_cons, List.count_cons, ih]

-- ── Completion-log lemmas ───────────────────────────────────────────────────

theorem completionsCount_append {α : Type} (cs ds : List (String × α)) (id : String) :
    completionsCount (cs ++ ds) id = completionsCount cs id + completionsCount ds id := by
  simp [completionsCount, List.filter_append]

theorem completionsCount_single_self {α : Type} (id : String) (c : α) :
    completionsCount [(id, c)] id = 1 := by
  simp [completionsCount]

theorem completionsCount_single_ne {α : Type} {id' id : String} (c : α)
    (h : id' ≠ id) : completionsCount [(id', c)] id = 0 := by
  simp [completionsCount, h]

theorem completionsCount_cons {α : Type} (a : String) (c : α)
    (cs : List (String × α)) (id : String) :
    completionsCount ((a, c) :: cs) id
      = (if a = id then 1 else 0) + completionsCount cs id := by
  by_cases h : a = id <;> simp [completionsCount, List.filter_cons, h] <;> omega

theorem completionsCount_map_reject (l : List String) (msg : String) (id : String) :
    completionsCount (l.map fun i => (i, Completion.rejected msg)) id = l.count id := by
  induction l with
  | nil => rfl
  | cons a t ih =>
    rw [List.map_cons, completionsCount_cons, ih, List.count_cons]
    by_cases h : a = id <;> simp [h] <;> omega

-- ── Delivery-buffer lemmas ──────────────────────────────────────────────────

theorem bufPush_length {buf : List StoredResult} (x : StoredResult)
    (h : buf.length ≤ MAX_BUFFER_SIZE) :
    (bufPush buf x).length ≤ MAX_BUFFER_SIZE := by
  unfold bufPush
  by_cases h1 : MAX_BUFFER_SIZE < (buf ++ [x]).length
  · rw [if_pos h1]
    rw [List.length_tail]
    simp only [List.length_append, List.length_cons, List.length_nil] at *
    omega
  · rw [if_neg h1]
    omega

theorem bufPush_suffix (buf : List StoredResult) (x : StoredResult) :
    List.IsSuffix (bufPush buf x) (buf ++ [x]) := by
  unfold bufPush
  by_cases h1 : MAX_BUFFER_SIZE < (buf ++ [x]).length
  · rw [if_pos h1]
    exact List.tail_suffix _
  · rw [if_neg h1]

theorem suffix_append_same {α : Type} {l₁ l₂ : List α} (l₃ : List α)
    (h : List.IsSuffix l₁ l₂) : List.IsSuffix (l₁ ++ l₃) (l₂ ++ l₃) := by
  obtain ⟨t, rfl⟩ := h
  exact ⟨t, (List.append_assoc t l₁ l₃).symm⟩

theorem bufFold_suffix (xs : List StoredResult) :
    ∀ buf : List StoredResult, List.IsSuffix (bufFold buf xs) (buf ++ xs) := by
  induction xs with
  | nil => intro buf; simp [bufFold]
  | cons x xs ih =>
    intro buf
    have h1 : List.IsSuffix (bufFold (bufPush buf x) xs) (bufPush buf x ++ xs) := ih _
    have h2 : List.IsSuffix (bufPush buf x ++ xs) ((buf ++ [x]) ++ xs) :=
      suffix_append_same xs (bufPush_suffix buf x)
    have h3 : (buf ++ [x]) ++ xs = buf ++ (x :: xs) := by simp
    have : bufFold buf (x :: xs) = bufFold (bufPush buf x) xs := rfl
    rw [this, ← h3]
    exact h1.trans h2

theorem bufFold_length (xs : List StoredResult) :
    ∀ {buf : List StoredResult}, buf.length ≤ MAX_BUFFER_SIZE →
      (bufFold buf xs).length ≤ MAX_BUFFER_SIZE := by
  induction xs with
  | nil => intro buf h; exact h
  | cons x xs ih =>
    intro buf h
    exact ih (bufPush_length x h)

theorem bufPush_full {buf : List StoredResult} (x : StoredResult)
    (h : buf.length = MAX_BUFFER_SIZE) : bufPush buf x = buf.tail ++ [x] := by
  cases buf with
  | nil => simp [MAX_BUFFER_SIZE] at h
  | cons a t =>
    unfold bufPush
    have h1 : MAX_BUFFER_SIZE < ((a :: t) ++ [x]).length := by
      simp only [List.length_append, List.length_cons, List.length_nil] at *
      omega
    rw [if_pos h1]
    rfl

theorem lookupA_enqueueList (xs : List (ResultFrame × Nat)) :
    ∀ (m : List (String × List StoredResult)) (sid : String),
      (lookupA (enqueueList m sid xs) sid).getD []
        = bufFold ((lookupA m sid).getD []) (xs.map fun p => ⟨p.1, p.2⟩) := by
  induction xs with
  | nil => intro m sid; rfl
  | cons x xs ih =>
    intro m sid
    have h1 : enqueueList m sid (x :: xs) = enqueueList (bufferResult m sid x.1 x.2) sid xs := rfl
    have h2 : lookupA (bufferResult m sid x.1 x.2) sid
        = some (bufPush ((lookupA m sid).getD []) ⟨x.1, x.2⟩) :=
      lookupA_setA_self _ _ _
    rw [h1, ih, h2]
    rfl

-- ── Claim C10 ───────────────────────────────────────────────────────────────

/-- C10: the buffered-results drain removes the session's entire buffer
unconditionally at the moment it is read: it returns the current buffer, the
binding is gone afterwards, and an immediately repeated drain returns the
empty list — all regardless of the session registry, which `drainBuffered`
never consults. -/
theorem claim_C10_thm (m : List (String × List StoredResult)) (sid : String) :
    (drainBuffered m sid).1 = (lookupA m sid).getD []
  ∧ lookupA (drainBuffered m sid).2 sid = none
  ∧ (drainBuffered (drainBuffered m sid).2 sid).1 = [] := by
  refine ⟨rfl, lookupA_eraseA_self m sid, ?_⟩
  simp [drainBuffered, lookupA_eraseA_self]

-- ── Claim C4 ────────────────────────────────────────────────────────────────

/-- C4: starting from a per-session buffer within capacity, any sequence of
buffered results keeps the buffer at ≤ 50 entries; the buffer is always a
suffix of the enqueue sequence, so the drain returns the retained results in
FIFO (enqueue) order; on overflow at full capacity the oldest entry is the
one evicted; and the drain returns exactly the buffer and clears it. -/
theorem claim_C4_thm (m : List (String × List StoredResult)) (sid : String)
    (xs : List (ResultFrame × Nat))
    (hlen : ((lookupA m sid).getD []).length ≤ MAX_BUFFER_SIZE) :
    MAX_BUFFER_SIZE = 50
  ∧ ((lookupA (enqueueList m sid xs) sid).getD []).length ≤ MAX_BUFFER_SIZE
  ∧ List.IsSuffix ((lookupA (enqueueList m sid xs) sid).getD [])
      (((lookupA m sid).getD []) ++ xs.map (fun p => ⟨p.1, p.2⟩))
  ∧ (∀ (buf : List StoredResult) (x : StoredResult),
      buf.length = MAX_BUFFER_SIZE → bufPush buf x = buf.tail ++ [x])
  ∧ (drainBuffered (enqueueList m sid xs) sid).1
      = (lookupA (enqueueList m sid xs) sid).getD []
  ∧ lookupA (drainBuffered (enqueueList m sid xs) sid).2 sid = none := by
  refine ⟨rfl, ?_, ?_, fun buf x h => bufPush_full x h, rfl, lookupA_eraseA_self _ _⟩
  · rw [lookupA_enqueueList]
    exact bufFold_length _ hlen
  · rw [lookupA_enqueueList]
    exact bufFold_suffix _ _

/-- C4, instantiated: one result buffered into an empty store for session
`"s"` obeys every conjunct of the property. -/
theorem claim_C4_witness :
    ((lookupA (enqueueList ([] : List (String × List StoredResult)) "s"
        [(⟨"result", some "task_1", "hello", false⟩, 5)]) "s").getD []).length
      ≤ MAX_BUFFER_SIZE :=
  (claim_C4_thm [] "s" [(⟨"result", some "task_1", "hello", false⟩, 5)]
    (by decide)).2.1

-- ── Rate-limiter lemmas ─────────────────────────────────────────────────────

theorem runRate_nil (m : List (String × RateLimitEntry)) (ip : String) :
    runRate m ip [] = ([], m) := rfl

theorem runRate_cons (m : List (String × RateLimitEntry)) (ip : String)
    (t : Nat) (ts : List Nat) :
    runRate m ip (t :: ts)
      = ((rateLimitMiddleware m ip t).1
            :: (runRate (rateLimitMiddleware m ip t).2 ip ts).1,
         (runRate (rateLimitMiddleware m ip t).2 ip ts).2) := rfl

theorem runRate_length (ip : String) :
    ∀ (ts : List Nat) (m : List (String × RateLimitEntry)),
      (runRate m ip ts).1.length = ts.length := by
  intro ts
  induction ts with
  | nil => intro m; rfl
  | cons t ts ih =>
    intro m
    rw [runRate_cons]
    simp [ih]

/-- Inside one window (all request times at or before the reset time `R`), a
source starting at count `c` keeps `resetTime = R`, saturates its count at
`RATE_LIMIT_MAX`, and the `i`-th further request is admitted iff `c + i`
stays below the maximum. -/
theorem runRate_window (ip : String) (R : Nat) :
    ∀ (ts : List Nat) (c : Nat), 1 ≤ c → c ≤ RATE_LIMIT_MAX → (∀ t ∈ ts, t ≤ R) →
      (runRate [(ip, ⟨c, R⟩)] ip ts).2
          = [(ip, ⟨min (c + ts.length) RATE_LIMIT_MAX, R⟩)]
    ∧ (∀ i, i < ts.length →
        ((runRate [(ip, ⟨c, R⟩)] ip ts).1[i]? = some RateDecision.next
          ↔ c + i < RATE_LIMIT_MAX)) := by
  intro ts
  induction ts with
  | nil =>
    intro c h1 h2 _
    refine ⟨?_, ?_⟩
    · rw [runRate_nil]
      have : min (c + ([] : List Nat).length) RATE_LIMIT_MAX = c := by
        simp only [List.length_nil, Nat.add_zero]
        omega
      rw [this]
    · intro i hi
      simp at hi
  | cons t ts ih =>
    intro c h1 h2 hw
    have ht : ¬ R < t := Nat.not_lt.mpr (hw t (List.mem_cons_self t ts))
    have hw' : ∀ x ∈ ts, x ≤ R := fun x hx => hw x (List.mem_cons_of_mem t hx)
    by_cases hc : RATE_LIMIT_MAX ≤ c
    · have hstep : rateLimitMiddleware [(ip, ⟨c, R⟩)] ip t
          = (.tooMany ((R - t + 999) / 1000), [(ip, ⟨c, R⟩)]) := by
        simp [rateLimitMiddleware, lookupA, ht, hc]
      obtain ⟨ihA, ihB⟩ := ih c h1 h2 hw'
      refine ⟨?_, ?_⟩
      · rw [runRate_cons, hstep]
        simp only []
        rw [ihA]
        have : min (c + ts.length) RATE_LIMIT_MAX
            = min (c + (t :: ts).length) RATE_LIMIT_MAX := by
          simp only [List.length_cons]
          omega
        rw [this]
      · intro i hi
        rw [runRate_cons, hstep]
        cases i with
        | zero =>
          simp only [List.getElem?_cons_zero]
          constructor
          · intro hcontra
            simp at hcontra
          · intro hlt
            omega
        | succ j =>
          simp only [List.getElem?_cons_succ]
          have hj : j < ts.length := by
            simp only [List.length_cons] at hi
            omega
          rw [ihB j hj]
          omega
    · have hstep : rateLimitMiddleware [(ip, ⟨c, R⟩)] ip t
          = (.next, [(ip, ⟨c + 1, R⟩)]) := by
        simp [rateLimitMiddleware, lookupA, setA, ht, hc]
      obtain ⟨ihA, ihB⟩ := ih (c + 1) (by omega) (by omega) hw'
      refine ⟨?_, ?_⟩
      · rw [runRate_cons, hstep]
        simp only []
        rw [ihA]
        have : min (c + 1 + ts.length) RATE_LIMIT_MAX
            = min (c + (t :: ts).length) RATE_LIMIT_MAX := by
          simp only [List.length_cons]
          omega
        rw [this]
      · intro i hi
        rw [runRate_cons, hstep]
        cases i with
        | zero =>
          simp only [List.getElem?_cons_zero]
          constructor
          · intro _
            omega
          · intro _
            trivial
        | succ j =>
          simp only [List.getElem?_cons_succ]
          have hj : j < ts.length := by
            simp only [List.length_cons] at hi
            omega
          rw [ihB j hj]
          omega

-- ── Claim C5 ────────────────────────────────────────────────────────────────

/-- C5: from an empty rate-limit map, with max 30 per 60000 ms fixed window, a
request sequence from one source whose times stay within the first request's
window has exactly its first 30 requests admitted; request 31 and every later
one in the window is answered with the 429 rejection; and a request arriving
strictly after the window's reset time is admitted again, starting a fresh
window with count 1. -/
theorem claim_C5_thm (ip : String) (t0 : Nat) (ts : List Nat) (t' : Nat)
    (hts : ∀ t ∈ ts, t ≤ t0 + RATE_LIMIT_WINDOW)
    (ht' : t0 + RATE_LIMIT_WINDOW < t') :
    RATE_LIMIT_MAX = 30
  ∧ RATE_LIMIT_WINDOW = 60000
  ∧ (∀ i, i < (t0 :: ts).length →
      ((runRate [] ip (t0 :: ts)).1[i]? = some RateDecision.next
        ↔ i < RATE_LIMIT_MAX))
  ∧ (∀ i, RATE_LIMIT_MAX ≤ i → i < (t0 :: ts).length →
      ∃ r, (runRate [] ip (t0 :: ts)).1[i]? = some (RateDecision.tooMany r))
  ∧ (rateLimitMiddleware (runRate [] ip (t0 :: ts)).2 ip t').1 = RateDecision.next
  ∧ lookupA (rateLimitMiddleware (runRate [] ip (t0 :: ts)).2 ip t').2 ip
      = some ⟨1, t' + RATE_LIMIT_WINDOW⟩ := by
  have hfirst : rateLimitMiddleware [] ip t0
      = (.next, [(ip, ⟨1, t0 + RATE_LIMIT_WINDOW⟩)]) := by
    simp [rateLimitMiddleware, lookupA, setA]
  obtain ⟨hA, hB⟩ := runRate_window ip (t0 + RATE_LIMIT_WINDOW) ts 1
    (Nat.le_refl 1) (by decide) hts
  have hlen : (runRate [(ip, ⟨1, t0 + RATE_LIMIT_WINDOW⟩)] ip ts).1.length
      = ts.length := runRate_length ip ts _
  refine ⟨rfl, rfl, ?_, ?_, ?_, ?_⟩
  · intro i hi
    rw [runRate_cons, hfirst]
    cases i with
    | zero =>
      simp only [List.getElem?_cons_zero]
      constructor
      · intro _
        decide
      · intro _
        trivial
    | succ j =>
      simp only [List.getElem?_cons_succ]
      have hj : j < ts.length := by
        simp only [List.length_cons] at hi
        omega
      rw [hB j hj]
      omega
  · intro i h30 hi
    rw [runRate_cons, hfirst]
    cases i with
    | zero => exact absurd h30 (by decide)
    | succ j =>
      simp only [List.getElem?_cons_succ]
      have hj : j < ts.length := by
        simp only [List.length_cons] at hi
        omega
      obtain ⟨d, hd⟩ : ∃ d, (runRate [(ip, ⟨1, t0 + RATE_LIMIT_WINDOW⟩)] ip ts).1[j]? = some d := by
        rw [List.getElem?_eq_getElem (show j < (runRate [(ip, ⟨1, t0 + RATE_LIMIT_WINDOW⟩)] ip ts).1.length by omega)]
        exact ⟨_, rfl⟩
      cases d with
      | next =>
        have : 1 + j < RATE_LIMIT_MAX := by
          rw [← hB j hj, hd]
        omega
      | tooMany r =>
        refine ⟨r, ?_⟩
        rw [hd]
  · rw [runRate_cons, hfirst]
    simp only []
    rw [hA]
    simp [rateLimitMiddleware, lookupA, ht']
  · rw [runRate_cons, hfirst]
    simp only []
    rw [hA]
    simp [rateLimitMiddleware, lookupA, setA, ht']

/-- C5, instantiated: with one in-window request at time 0 the decision list
starts admitted, and a request at time 60001 restarts the window. -/
theorem claim_C5_witness :
    (rateLimitMiddleware (runRate [] "1.2.3.4" [0, 1]).2 "1.2.3.4" 70000).1
      = RateDecision.next :=
  (claim_C5_thm "1.2.3.4" 0 [1] 70000
    (by intro t htmem; simp at htmem; subst htmem; decide)
    (by decide)).2.2.2.2.1

-- ── Correlator lemmas: each id settles exactly once ─────────────────────────

theorem settle_preserves {p : List String} {cs : List (String × Completion)}
    {id id' : String} (c : Completion) (hmem : id' ∈ p)
    (h : (p.count id = 1 ∧ completionsCount cs id = 0)
       ∨ (p.count id = 0 ∧ completionsCount cs id = 1)) :
    ((deleteKey p id').count id = 1 ∧ completionsCount (cs ++ [(id', c)]) id = 0)
  ∨ ((deleteKey p id').count id = 0 ∧ completionsCount (cs ++ [(id', c)]) id = 1) := by
  by_cases hid : id' = id
  · subst hid
    rcases h with ⟨h1, h2⟩ | ⟨h1, h2⟩
    · right
      refine ⟨count_deleteKey_self _ _, ?_⟩
      rw [completionsCount_append, h2, completionsCount_single_self]
    · exact absurd hmem (List.count_eq_zero.mp h1)
  · have hne : id ≠ id' := fun hh => hid hh.symm
    rcases h with ⟨h1, h2⟩ | ⟨h1, h2⟩
    · left
      refine ⟨?_, ?_⟩
      · rw [count_deleteKey_ne _ hne]
        exact h1
      · rw [completionsCount_append, h2, completionsCount_single_ne _ hid]
    · right
      refine ⟨?_, ?_⟩
      · rw [count_deleteKey_ne _ hne]
        exact h1
      · rw [completionsCount_append, h2, completionsCount_single_ne _ hid]

theorem handleResponse_fields (st : ServerState) (id' : String)
    (err : Option String) (rid : Option String)
    (hg : id' ≠ "" ∧ id' ∈ st.pendingRequests) :
    (handleResponse st id' err rid).pendingRequests = deleteKey st.pendingRequests id'
  ∧ ∃ c, (handleResponse st id' err rid).completions = st.completions ++ [(id', c)] := by
  cases err with
  | some e =>
    refine ⟨?_, ⟨.rejected e, ?_⟩⟩ <;> simp [handleResponse, hg.1, hg.2]
  | none =>
    cases rid with
    | none =>
      refine ⟨?_, ⟨.resolved, ?_⟩⟩ <;> simp [handleResponse, hg.1, hg.2]
    | some r =>
      by_cases hr : r = ""
      · subst hr
        refine ⟨?_, ⟨.resolved, ?_⟩⟩ <;> simp [handleResponse, hg.1, hg.2]
      · cases hl : lookupA st.activeRuns id' with
        | none =>
          refine ⟨?_, ⟨.resolved, ?_⟩⟩ <;> simp [handleResponse, hg.1, hg.2, hr, hl]
        | some run =>
          refine ⟨?_, ⟨.resolved, ?_⟩⟩ <;> simp [handleResponse, hg.1, hg.2, hr, hl]

theorem corrStep_preserves (st : ServerState) (id : String) (e : CorrEvent)
    (h : (st.pendingRequests.count id = 1 ∧ completionsFor st id = 0)
       ∨ (st.pendingRequests.count id = 0 ∧ completionsFor st id = 1)) :
    ((corrStep st e).pendingRequests.count id = 1 ∧ completionsFor (corrStep st e) id = 0)
  ∨ ((corrStep st e).pendingRequests.count id = 0 ∧ completionsFor (corrStep st e) id = 1) := by
  cases e with
  | response id' err rid =>
    show _ ∨ _
    by_cases hg : id' ≠ "" ∧ id' ∈ st.pendingRequests
    · obtain ⟨hp, c, hc⟩ := handleResponse_fields st id' err rid hg
      unfold completionsFor
      rw [show corrStep st (.response id' err rid) = handleResponse st id' err rid from rfl,
          hp, hc]
      exact settle_preserves c hg.2 h
    · rw [show corrStep st (.response id' err rid) = handleResponse st id' err rid from rfl]
      unfold handleResponse
      rw [if_neg hg]
      exact h
  | timerExpire id' =>
    show _ ∨ _
    by_cases hg : id' ∈ st.pendingRequests
    · rw [show corrStep st (.timerExpire id') = timeoutFire st id' from rfl]
      unfold timeoutFire completionsFor
      rw [if_pos hg]
      exact settle_preserves _ hg h
    · rw [show corrStep st (.timerExpire id') = timeoutFire st id' from rfl]
      unfold timeoutFire
      rw [if_neg hg]
      exact h
  | sendThrow id' msg =>
    show _ ∨ _
    by_cases hg : id' ∈ st.pendingRequests
    · rw [show corrStep st (.sendThrow id' msg) = sendCatchReject st id' msg from rfl]
      unfold sendCatchReject completionsFor
      rw [if_pos hg]
      exact settle_preserves _ hg h
    · rw [show corrStep st (.sendThrow id' msg) = sendCatchReject st id' msg from rfl]
      unfold sendCatchReject
      rw [if_neg hg]
      exact h
  | stopServer =>
    right
    rw [show corrStep st .stopServer = stopPending st from rfl]
    unfold stopPending completionsFor
    refine ⟨rfl, ?_⟩
    rw [completionsCount_append, completionsCount_map_reject]
    rcases h with ⟨h1, h2⟩ | ⟨h1, h2⟩
    · rw [h1]
      unfold completionsFor at h2
      rw [h2]
    · rw [h1]
      unfold completionsFor at h2
      rw [h2]

theorem corrStep_forces (st : ServerState) (id : String) (e : CorrEvent)
    (h : (st.pendingRequests.count id = 1 ∧ completionsFor st id = 0)
       ∨ (st.pendingRequests.count id = 0 ∧ completionsFor st id = 1))
    (he : e = .timerExpire id ∨ e = .stopServer) :
    (corrStep st e).pendingRequests.count id = 0
  ∧ completionsFor (corrStep st e) id = 1 := by
  rcases he with rfl | rfl
  · rcases h with ⟨h1, h2⟩ | ⟨h1, h2⟩
    · have hmem : id ∈ st.pendingRequests := by
        rw [← List.count_pos_iff]
        omega
      rw [show corrStep st (.timerExpire id) = timeoutFire st id from rfl]
      unfold timeoutFire completionsFor
      rw [if_pos hmem]
      refine ⟨count_deleteKey_self _ _, ?_⟩
      unfold completionsFor at h2
      rw [completionsCount_append, h2, completionsCount_single_self]
    · have hmem : id ∉ st.pendingRequests := List.count_eq_zero.mp h1
      rw [show corrStep st (.timerExpire id) = timeoutFire st id from rfl]
      unfold timeoutFire
      rw [if_neg hmem]
      exact ⟨h1, h2⟩
  · rw [show corrStep st .stopServer = stopPending st from rfl]
    unfold stopPending completionsFor
    refine ⟨rfl, ?_⟩
    rw [completionsCount_append, completionsCount_map_reject]
    rcases h with ⟨h1, h2⟩ | ⟨h1, h2⟩ <;>
      · unfold completionsFor at h2
        rw [h1, h2]

theorem corrStep_disj2 (st : ServerState) (id : String) (e : CorrEvent)
    (h : st.pendingRequests.count id = 0 ∧ completionsFor st id = 1) :
    (corrStep st e).pendingRequests.count id = 0
  ∧ completionsFor (corrStep st e) id = 1 := by
  rcases corrStep_preserves st id e (Or.inr h) with ⟨h1, h2⟩ | hgood
  · exfalso
    -- completions are only ever appended, so the recorded completion cannot vanish
    cases e with
    | response id' err rid =>
      by_cases hg : id' ≠ "" ∧ id' ∈ st.pendingRequests
      · obtain ⟨hp, c, hc⟩ := handleResponse_fields st id' err rid hg
        unfold completionsFor at h2
        rw [show corrStep st (.response id' err rid) = handleResponse st id' err rid from rfl,
            hc, completionsCount_append] at h2
        unfold completionsFor at h
        omega
      · rw [show corrStep st (.response id' err rid) = handleResponse st id' err rid from rfl] at h2
        unfold handleResponse at h2
        rw [if_neg hg] at h2
        unfold completionsFor at h h2
        omega
    | timerExpire id' =>
      rw [show corrStep st (.timerExpire id') = timeoutFire st id' from rfl] at h2
      unfold timeoutFire at h2
      by_cases hg : id' ∈ st.pendingRequests
      · rw [if_pos hg] at h2
        unfold completionsFor at h h2
        simp only [completionsCount_append] at h2
        omega
      · rw [if_neg hg] at h2
        unfold completionsFor at h h2
        omega
    | sendThrow id' msg =>
      rw [show corrStep st (.sendThrow id' msg) = sendCatchReject st id' msg from rfl] at h2
      unfold sendCatchReject at h2
      by_cases hg : id' ∈ st.pendingRequests
      · rw [if_pos hg] at h2
        unfold completionsFor at h h2
        simp only [completionsCount_append] at h2
        omega
      · rw [if_neg hg] at h2
        unfold completionsFor at h h2
        omega
    | stopServer =>
      rw [show corrStep st .stopServer = stopPending st from rfl] at h2
      unfold stopPending at h2
      unfold completionsFor at h h2
      simp only [completionsCount_append] at h2
      omega
  · exact hgood

theorem corrRun_disj2 (id : String) :
    ∀ (es : List CorrEvent) (st : ServerState),
      st.pendingRequests.count id = 0 ∧ completionsFor st id = 1 →
      (corrRun st es).pendingRequests.count id = 0
    ∧ completionsFor (corrRun st es) id = 1 := by
  intro es
  induction es with
  | nil => intro st h; exact h
  | cons e es ih =>
    intro st h
    exact ih (corrStep st e) (corrStep_disj2 st id e h)

theorem corrRun_preserves (id : String) :
    ∀ (es : List CorrEvent) (st : ServerState),
      ((st.pendingRequests.count id = 1 ∧ completionsFor st id = 0)
        ∨ (st.pendingRequests.count id = 0 ∧ completionsFor st id = 1)) →
      ((corrRun st es).pendingRequests.count id = 1 ∧ completionsFor (corrRun st es) id = 0)
    ∨ ((corrRun st es).pendingRequests.count id = 0 ∧ completionsFor (corrRun st es) id = 1) := by
  intro es
  induction es with
  | nil => intro st h; exact h
  | cons e es ih =>
    intro st h
    exact ih (corrStep st e) (corrStep_preserves st id e h)

theorem corrRun_settled (id : String) :
    ∀ (es : List CorrEvent) (st : ServerState),
      ((st.pendingRequests.count id = 1 ∧ completionsFor st id = 0)
        ∨ (st.pendingRequests.count id = 0 ∧ completionsFor st id = 1)) →
      (CorrEvent.timerExpire id ∈ es ∨ CorrEvent.stopServer ∈ es) →
      completionsFor (corrRun st es) id = 1 := by
  intro es
  induction es with
  | nil =>
    intro st _ hmem
    rcases hmem with hmem | hmem <;> exact absurd hmem (List.not_mem_nil _)
  | cons e es ih =>
    intro st h hmem
    by_cases hee : e = CorrEvent.timerExpire id ∨ e = CorrEvent.stopServer
    · have h2 := corrStep_forces st id e h hee
      exact (corrRun_disj2 id es (corrStep st e) h2).2
    · have hmem' : CorrEvent.timerExpire id ∈ es ∨ CorrEvent.stopServer ∈ es := by
        rcases hmem with hmem | hmem <;> rw [List.mem_cons] at hmem
        · rcases hmem with hmem | hmem
          · exact absurd (Or.inl hmem.symm) hee
          · exact Or.inl hmem
        · rcases hmem with hmem | hmem
          · exact absurd (Or.inr hmem.symm) hee
          · exact Or.inr hmem
      exact ih (corrStep st e) (corrStep_preserves st id e h) hmem'

-- ── Claim C2 ────────────────────────────────────────────────────────────────

/-- C2: for a registered pending correlation id (present exactly once, not
yet settled), any sequence of gateway responses, timer expiries, send
failures and shutdowns settles its promise at most once — and exactly once
as soon as the sequence contains the id's own timer expiry or a shutdown —
so no id is ever both resolved and rejected, or settled twice, or dropped
while its expiry timer or the shutdown sweep can still reach it. -/
theorem claim_C2_thm (st : ServerState) (id : String) (es : List CorrEvent)
    (h1 : st.pendingRequests.count id = 1) (h0 : completionsFor st id = 0) :
    completionsFor (corrRun st es) id ≤ 1
  ∧ ((CorrEvent.timerExpire id ∈ es ∨ CorrEvent.stopServer ∈ es) →
      completionsFor (corrRun st es) id = 1) := by
  refine ⟨?_, ?_⟩
  · rcases corrRun_preserves id es st (Or.inl ⟨h1, h0⟩) with ⟨_, hc⟩ | ⟨_, hc⟩ <;> omega
  · intro hmem
    exact corrRun_settled id es st (Or.inl ⟨h1, h0⟩) hmem

/-- C2, instantiated: a pending id that sees its response and then its timer
expiry is settled exactly once. -/
theorem claim_C2_witness :
    completionsFor
      (corrRun c7State [CorrEvent.response "req_1" none none, CorrEvent.timerExpire "req_1"])
      "req_1" = 1 :=
  (claim_C2_thm c7State "req_1"
    [CorrEvent.response "req_1" none none, CorrEvent.timerExpire "req_1"]
    (by decide) (by decide)).2 (Or.inl (by decide))

-- ── Claim C3 ────────────────────────────────────────────────────────────────

/-- C3: when no matching response has arrived within the window (the id is
still pending) and the 30000 ms expiry timer fires, the call is rejected
with the request-timeout error and the id is gone from the pending map
immediately afterwards. -/
theorem claim_C3_thm (st : ServerState) (id : String)
    (h : id ∈ st.pendingRequests) :
    GATEWAY_TIMEOUT = 30000
  ∧ (timeoutFire st id).completions
      = st.completions ++ [(id, Completion.rejected "Gateway request timeout")]
  ∧ id ∉ (timeoutFire st id).pendingRequests := by
  refine ⟨rfl, ?_, ?_⟩
  · unfold timeoutFire
    rw [if_pos h]
  · unfold timeoutFire
    rw [if_pos h]
    exact not_mem_deleteKey _ _

/-- C3, instantiated: the pending id of `c7State` is rejected with the
request-timeout error by its timer and is absent afterwards. -/
theorem claim_C3_witness :
    (timeoutFire c7State "req_1").completions
      = c7State.completions ++ [("req_1", Completion.rejected "Gateway request timeout")] :=
  (claim_C3_thm c7State "req_1" (by decide)).2.1

-- ── Gateway-link reconnect lemmas ───────────────────────────────────────────

theorem scheduleReconnect_le {st : LinkState} (h : st.reconnectTimers ≤ 1) :
    (scheduleReconnect st).reconnectTimers ≤ 1 := by
  unfold scheduleReconnect
  by_cases h0 : st.reconnectTimers ≠ 0
  · rw [if_pos h0]
    exact h
  · rw [if_neg h0]
    simp only [not_not] at h0
    simp [h0]

theorem connectToGateway_le {st : LinkState} (b : Bool)
    (h : st.reconnectTimers ≤ 1) :
    (connectToGateway st b).reconnectTimers ≤ 1 := by
  unfold connectToGateway
  by_cases h1 : st.isConnecting ∨ st.gatewayWs = some WS_OPEN
  · rw [if_pos h1]
    exact h
  · rw [if_neg h1]
    cases b with
    | true =>
      simp only [if_pos]
      exact scheduleReconnect_le h
    | false =>
      simp only [Bool.false_eq_true, if_neg, if_false]
      exact h

theorem linkStep_le (st : LinkState) (e : LinkEvent)
    (h : st.reconnectTimers ≤ 1) : (linkStep st e).reconnectTimers ≤ 1 := by
  cases e with
  | connectCall b => exact connectToGateway_le b h
  | wsOpen => simp [linkStep]
  | wsError => exact h
  | wsClose => exact scheduleReconnect_le h
  | timerFire b =>
    show (if st.reconnectTimers = 0 then st
      else connectToGateway {st with reconnectTimers := st.reconnectTimers - 1} b).reconnectTimers ≤ 1
    by_cases h0 : st.reconnectTimers = 0
    · rw [if_pos h0]
      exact h
    · rw [if_neg h0]
      exact connectToGateway_le b (by simp only []; omega)

theorem linkRun_le (es : List LinkEvent) :
    ∀ st : LinkState, st.reconnectTimers ≤ 1 →
      (linkRun st es).reconnectTimers ≤ 1 := by
  induction es with
  | nil => intro st h; exact h
  | cons e es ih =>
    intro st h
    exact ih (linkStep st e) (linkStep_le st e h)

-- ── Claim C6 ────────────────────────────────────────────────────────────────

/-- C6: at most one reconnect timer is ever outstanding: the bound is
preserved by every link event; a close with no pending timer schedules
exactly one; a close while one is already pending leaves exactly one (no
additional timer); and `scheduleReconnect` is a no-op whenever a timer is
pending. -/
theorem claim_C6_thm (st st2 : LinkState) (es : List LinkEvent)
    (h : st.reconnectTimers ≤ 1) :
    (linkRun st es).reconnectTimers ≤ 1
  ∧ (st.reconnectTimers = 0 → (linkStep st .wsClose).reconnectTimers = 1)
  ∧ (st.reconnectTimers = 1 → (linkStep st .wsClose).reconnectTimers = 1)
  ∧ (st2.reconnectTimers ≠ 0 → scheduleReconnect st2 = st2) := by
  refine ⟨linkRun_le es st h, ?_, ?_, ?_⟩
  · intro h0
    show (scheduleReconnect {st with gatewayWs := none, isConnecting := false}).reconnectTimers = 1
    unfold scheduleReconnect
    simp [h0]
  · intro h1
    show (scheduleReconnect {st with gatewayWs := none, isConnecting := false}).reconnectTimers = 1
    unfold scheduleReconnect
    simp [h1]
  · intro h2
    unfold scheduleReconnect
    rw [if_pos h2]

/-- C6, instantiated: from the initial state, a close schedules one timer and
a second close right after leaves that single timer in place. -/
theorem claim_C6_witness :
    (linkRun ⟨none, false, 0⟩ [LinkEvent.wsClose, LinkEvent.wsClose]).reconnectTimers ≤ 1 :=
  (claim_C6_thm ⟨none, false, 0⟩ ⟨none, false, 0⟩
    [LinkEvent.wsClose, LinkEvent.wsClose] (by decide)).1

-- ── Claim C9 ────────────────────────────────────────────────────────────────

/-- C9 as stated is false: in the `AwaitingChallenge` phase the transport is
already open, so the code's guard (`readyState !== OPEN`) does not reject,
although the phase is not `Connected`. -/
theorem claim_C9_counterexample :
    ¬ (sendConnGuardRejects (phaseWs LinkPhase.AwaitingChallenge) = true
        ↔ LinkPhase.AwaitingChallenge ≠ LinkPhase.Connected) := by
  decide

/-- C9, amended: a send fails with the connection error iff the transport is
absent or not open — that is, exactly in the `Disconnected` and `Connecting`
phases; both `AwaitingChallenge` and `Connected` are admitted, since the code
keeps no flag distinguishing hello-ok completion. -/
theorem claim_C9_thm :
    ∀ ph : LinkPhase,
      sendConnGuardRejects (phaseWs ph) = true
        ↔ (ph = LinkPhase.Disconnected ∨ ph = LinkPhase.Connecting) := by
  intro ph
  cases ph <;> decide

-- ── Assistant-stream lemmas ─────────────────────────────────────────────────

/-- Feeding a run's assistant snapshots through `handleAgent` updates exactly
that run's text by `assistantStep`, leaving its task and session untouched. -/
theorem processAssistant_run (now : Nat) (rid : String) (hrid : rid ≠ "") :
    ∀ (ts : List String) (st : ServerState) (run : ActiveRun),
      lookupA st.activeRuns rid = some run →
      lookupA (processAssistantEvents st now rid ts).activeRuns rid
        = some ⟨run.taskId, run.sessionId, ts.foldl assistantStep run.text⟩ := by
  intro ts
  induction ts with
  | nil =>
    intro st run hrun
    exact hrun
  | cons t ts ih =>
    intro st run hrun
    by_cases ht : t = ""
    · subst ht
      have hstep : handleAgent st now ⟨rid, .assistant, some "", none, none, ""⟩ = st := by
        simp [handleAgent, handleAgentRun, hrid, hrun]
      have hrw : processAssistantEvents st now rid ("" :: ts)
          = processAssistantEvents st now rid ts := by
        simp only [processAssistantEvents, List.foldl_cons, hstep]
      rw [hrw, ih st run hrun]
      simp [assistantStep]
    · have hstep : handleAgent st now ⟨rid, .assistant, some t, none, none, ""⟩
          = {st with activeRuns := setA st.activeRuns rid ⟨run.taskId, run.sessionId, t⟩} := by
        simp [handleAgent, handleAgentRun, hrid, hrun, ht]
      have hrw : processAssistantEvents st now rid (t :: ts)
          = processAssistantEvents
              {st with activeRuns := setA st.activeRuns rid ⟨run.taskId, run.sessionId, t⟩}
              now rid ts := by
        simp only [processAssistantEvents, List.foldl_cons, hstep]
      rw [hrw, ih _ ⟨run.taskId, run.sessionId, t⟩ (lookupA_setA_self _ _ _)]
      simp [assistantStep, ht]

-- ── Claim C8 ────────────────────────────────────────────────────────────────

/-- C8 as stated is false: an assistant event whose text snapshot is the
empty string does not replace the accumulated text — `data?.text` is falsy
for `""` — so after snapshots `["hello", ""]` the run's text is `"hello"`,
not the final snapshot `""`. -/
theorem claim_C8_counterexample :
    (lookupA (processAssistantEvents c8State 0 "u1" ["hello", ""]).activeRuns "u1").map
        ActiveRun.text = some "hello"
  ∧ some "hello" ≠ some ("" : String) := by
  refine ⟨?_, by decide⟩
  rfl

/-- C8, amended: an assistant event carrying a non-empty text snapshot
replaces the run's accumulated text with that snapshot (overwrite, not
append), while an event carrying the empty snapshot leaves the state
unchanged; hence after snapshots `t1, ..., tn` with `tn` non-empty the
accumulated text equals `tn` (not a concatenation). -/
theorem claim_C8_thm (st : ServerState) (now : Nat) (rid : String)
    (run : ActiveRun) (ts : List String) (tn : String) (hrid : rid ≠ "")
    (hrun : lookupA st.activeRuns rid = some run) (htn : tn ≠ "") :
    (lookupA (processAssistantEvents st now rid (ts ++ [tn])).activeRuns rid).map
        ActiveRun.text = some tn
  ∧ handleAgent st now ⟨rid, .assistant, some "", none, none, ""⟩ = st := by
  refine ⟨?_, by simp [handleAgent, handleAgentRun, hrid, hrun]⟩
  rw [processAssistant_run now rid hrid (ts ++ [tn]) st run hrun]
  simp only [Option.map_some']
  congr 1
  rw [List.foldl_append]
  simp [assistantStep, htn]

/-- C8, instantiated: after snapshots `["a", "done"]` the tracked run's text
is `"done"`. -/
theorem claim_C8_witness :
    (lookupA (processAssistantEvents c8State 0 "u1" (["a"] ++ ["done"])).activeRuns "u1").map
        ActiveRun.text = some "done" :=
  (claim_C8_thm c8State 0 "u1" ⟨"task_1", "sess_1", ""⟩ ["a"] "done"
    (by decide) rfl (by decide)).1

-- ── Run-tracker step lemmas ─────────────────────────────────────────────────

/-- A response carrying a truthy `runId` for a pending id with a registered
run re-keys the run from the request id to the gateway-assigned run id and
resolves the pending promise. -/
theorem handleResponse_rekey (st : ServerState) (reqId rid : String)
    (run0 : ActiveRun) (hreq : reqId ≠ "") (hpend : reqId ∈ st.pendingRequests)
    (hrid : rid ≠ "") (hrun : lookupA st.activeRuns reqId = some run0) :
    handleResponse st reqId none (some rid)
      = {st with pendingRequests := deleteKey st.pendingRequests reqId,
                 activeRuns := setA (eraseA st.activeRuns reqId) rid run0,
                 completions := st.completions ++ [(reqId, Completion.resolved)]} := by
  simp [handleResponse, hreq, hpend, hrid, hrun]

/-- An assistant event with a truthy text snapshot overwrites the tracked
run's accumulated text and changes nothing else. -/
theorem handleAgent_assistant (st : ServerState) (now : Nat) (p : AgentPayload)
    (run : ActiveRun) (hp : p.stream = .assistant) (htext : p.dataText.getD "" ≠ "")
    (hrid : p.runId ≠ "") (hrun : lookupA st.activeRuns p.runId = some run) :
    handleAgent st now p
      = {st with activeRuns := setA st.activeRuns p.runId ⟨run.taskId, run.sessionId, p.dataText.getD ""⟩} := by
  simp [handleAgent, handleAgentRun, hp, htext, hrid, hrun]

/-- A lifecycle `end` event for a tracked run whose owning session has a live
open transport sends exactly one result frame to it and deletes the run. -/
theorem handleAgent_end_live (st : ServerState) (now : Nat) (p : AgentPayload)
    (run : ActiveRun) (hp1 : p.stream = .lifecycle) (hp2 : p.dataPhase = some "end")
    (hrid : p.runId ≠ "") (hrun : lookupA st.activeRuns p.runId = some run)
    (hsess : lookupA st.sessions run.sessionId = some true) :
    handleAgent st now p
      = {st with
          sentFrames := st.sentFrames ++
            [(run.sessionId,
              ⟨"result", some run.taskId,
                if run.text = "" then "Task completed (no text response)" else run.text,
                false⟩)],
          activeRuns := eraseA st.activeRuns p.runId} := by
  simp [handleAgent, handleAgentRun, hp1, hp2, hrid, hrun, hsess]

/-- A lifecycle `end` event for a tracked run whose owning session has no
live open transport buffers exactly one result frame (and attempts a push
notification, outside this model) and deletes the run. -/
theorem handleAgent_end_offline (st : ServerState) (now : Nat) (p : AgentPayload)
    (run : ActiveRun) (hp1 : p.stream = .lifecycle) (hp2 : p.dataPhase = some "end")
    (hrid : p.runId ≠ "") (hrun : lookupA st.activeRuns p.runId = some run)
    (hsess : lookupA st.sessions run.sessionId ≠ some true) :
    handleAgent st now p
      = {st with
          bufferedResults := bufferResult st.bufferedResults run.sessionId
              ⟨"result", some run.taskId,
                if run.text = "" then "Task completed (no text response)" else run.text,
                false⟩
              now,
          activeRuns := eraseA st.activeRuns p.runId} := by
  cases hl : lookupA st.sessions run.sessionId with
  | none => simp [handleAgent, handleAgentRun, hp1, hp2, hrid, hrun, hl]
  | some b =>
    cases b with
    | true => exact absurd hl hsess
    | false => simp [handleAgent, handleAgentRun, hp1, hp2, hrid, hrun, hl]

-- ── Claim C7 ────────────────────────────────────────────────────────────────

/-- C7: after the chat.send response `{runId := rid}` the run registered
under the local request id is re-keyed to `rid`; a later assistant snapshot
addressed to `rid` updates that same task's run; and the lifecycle `end`
event for `rid` makes the owning session's live transport receive exactly
one `{type:'result', taskId, text}` frame carrying the original task id and
the accumulated text, after which the run entry is deleted (gone under both
the run id and the stale request id). -/
theorem claim_C7_thm (st : ServerState) (reqId rid done f1 f2 : String)
    (run0 : ActiveRun) (now1 now2 : Nat)
    (hreq : reqId ≠ "") (hpend : reqId ∈ st.pendingRequests)
    (hrun : lookupA st.activeRuns reqId = some run0)
    (hrid : rid ≠ "") (hne : rid ≠ reqId) (hdone : done ≠ "")
    (hsess : lookupA st.sessions run0.sessionId = some true) :
    lookupA (handleResponse st reqId none (some rid)).activeRuns rid = some run0
  ∧ (handleAgent (handleAgent (handleResponse st reqId none (some rid)) now1
        ⟨rid, .assistant, some done, none, none, f1⟩) now2
        ⟨rid, .lifecycle, none, some "end", none, f2⟩).sentFrames
      = st.sentFrames ++ [(run0.sessionId, ⟨"result", some run0.taskId, done, false⟩)]
  ∧ lookupA (handleAgent (handleAgent (handleResponse st reqId none (some rid)) now1
        ⟨rid, .assistant, some done, none, none, f1⟩) now2
        ⟨rid, .lifecycle, none, some "end", none, f2⟩).activeRuns rid = none
  ∧ lookupA (handleAgent (handleAgent (handleResponse st reqId none (some rid)) now1
        ⟨rid, .assistant, some done, none, none, f1⟩) now2
        ⟨rid, .lifecycle, none, some "end", none, f2⟩).activeRuns reqId = none := by
  have hne' : reqId ≠ rid := fun hh => hne hh.symm
  have h1 := handleResponse_rekey st reqId rid run0 hreq hpend hrid hrun
  have hlook1 : lookupA (handleResponse st reqId none (some rid)).activeRuns rid
      = some run0 := by
    rw [h1]
    exact lookupA_setA_self _ _ _
  have h2 := handleAgent_assistant (handleResponse st reqId none (some rid)) now1
    ⟨rid, .assistant, some done, none, none, f1⟩ run0 rfl hdone hrid hlook1
  have hlook2 : lookupA (handleAgent (handleResponse st reqId none (some rid)) now1
      ⟨rid, .assistant, some done, none, none, f1⟩).activeRuns rid
      = some ⟨run0.taskId, run0.sessionId, done⟩ := by
    rw [h2]
    exact lookupA_setA_self _ _ _
  have hsess2 : lookupA (handleAgent (handleResponse st reqId none (some rid)) now1
      ⟨rid, .assistant, some done, none, none, f1⟩).sessions run0.sessionId
      = some true := by
    rw [h2, h1]
    exact hsess
  have h3 := handleAgent_end_live (handleAgent (handleResponse st reqId none (some rid)) now1
      ⟨rid, .assistant, some done, none, none, f1⟩) now2
      ⟨rid, .lifecycle, none, some "end", none, f2⟩
      ⟨run0.taskId, run0.sessionId, done⟩ rfl rfl hrid hlook2 hsess2
  have h2act : (handleAgent (handleResponse st reqId none (some rid)) now1
      ⟨rid, .assistant, some done, none, none, f1⟩).activeRuns
      = setA (handleResponse st reqId none (some rid)).activeRuns rid
          ⟨run0.taskId, run0.sessionId, done⟩ := by
    rw [h2]
    rfl
  have h3act : (handleAgent (handleAgent (handleResponse st reqId none (some rid)) now1
      ⟨rid, .assistant, some done, none, none, f1⟩) now2
      ⟨rid, .lifecycle, none, some "end", none, f2⟩).activeRuns
      = eraseA (handleAgent (handleResponse st reqId none (some rid)) now1
          ⟨rid, .assistant, some done, none, none, f1⟩).activeRuns rid := by
    rw [h3]
  have h1act : (handleResponse st reqId none (some rid)).activeRuns
      = setA (eraseA st.activeRuns reqId) rid run0 := by
    rw [h1]
  refine ⟨hlook1, ?_, ?_, ?_⟩
  · rw [h3, h2, h1]
    simp [hdone]
  · rw [h3act]
    exact lookupA_eraseA_self _ _
  · rw [h3act, lookupA_eraseA_ne _ hne', h2act, lookupA_setA_ne _ _ hne, h1act,
        lookupA_setA_ne _ _ hne]
    exact lookupA_eraseA_self _ _

/-- C7, instantiated: from the post-`/api/send` state, the response
`{runId := "u1"}` followed by an assistant snapshot `"done"` and the
lifecycle end for `"u1"` sends exactly one result frame for `task_1` with
text `"done"` to session `sess_1`. -/
theorem claim_C7_witness :
    (handleAgent (handleAgent (handleResponse c7State "req_1" none (some "u1")) 1
        ⟨"u1", .assistant, some "done", none, none, "s1"⟩) 2
        ⟨"u1", .lifecycle, none, some "end", none, "s2"⟩).sentFrames
      = c7State.sentFrames ++ [("sess_1", ⟨"result", some "task_1", "done", false⟩)] :=
  (claim_C7_thm c7State "req_1" "u1" "done" "s1" "s2" ⟨"task_1", "sess_1", ""⟩ 1 2
    (by decide) (by decide) rfl (by decide) (by decide) (by decide) rfl).2.1

-- ── Claim C1 ────────────────────────────────────────────────────────────────

/-- C1 as stated is false: when the gateway send fails while the owning
session has no live transport, the `/api/send` catch branch neither sends
nor buffers the `{error:true}` result frame — the admitted request is
silently dropped (only the run registration is removed).  Here the admitted
request for offline session `sess_1` fails with `'Gateway not connected'`
and afterwards both the frame log and the delivery buffer are still empty. -/
theorem claim_C1_counterexample :
    (apiSendCatch c1State "req_1" "task_1" "sess_1" "Gateway not connected").sentFrames = []
  ∧ (apiSendCatch c1State "req_1" "task_1" "sess_1" "Gateway not connected").bufferedResults
      = [] := by
  exact ⟨rfl, rfl⟩

/-- C1, amended: an admitted request whose run reaches its lifecycle end
yields exactly one result frame — sent to the owning session's live open
transport, or buffered for later drain when the session is offline — and the
run is deleted either way; but when the gateway send fails, the
`{type:'result', error:true}` frame with the human-readable message is sent
only if the owning session has a live open transport at that moment, and
with no live transport nothing is sent or buffered (the error result is
dropped). -/
theorem claim_C1_thm (st : ServerState) (requestId taskId sessionId errMsg : String)
    (now : Nat) (p : AgentPayload) (run : ActiveRun)
    (hp1 : p.stream = .lifecycle) (hp2 : p.dataPhase = some "end")
    (hrid : p.runId ≠ "") (hrun : lookupA st.activeRuns p.runId = some run) :
    (lookupA st.sessions sessionId = some true →
        (apiSendCatch st requestId taskId sessionId errMsg).sentFrames
          = st.sentFrames ++ [(sessionId,
              ⟨"result", some taskId, "Error: " ++ errMsg ++ ". Please try again.", true⟩)])
  ∧ (lookupA st.sessions sessionId ≠ some true →
        (apiSendCatch st requestId taskId sessionId errMsg).sentFrames = st.sentFrames
      ∧ (apiSendCatch st requestId taskId sessionId errMsg).bufferedResults
          = st.bufferedResults)
  ∧ (lookupA st.sessions run.sessionId = some true →
        (handleAgent st now p).sentFrames
          = st.sentFrames ++ [(run.sessionId,
              ⟨"result", some run.taskId,
               if run.text = "" then "Task completed (no text response)" else run.text,
               false⟩)]
      ∧ (handleAgent st now p).bufferedResults = st.bufferedResults
      ∧ lookupA (handleAgent st now p).activeRuns p.runId = none)
  ∧ (lookupA st.sessions run.sessionId ≠ some true →
        (handleAgent st now p).sentFrames = st.sentFrames
      ∧ (handleAgent st now p).bufferedResults
          = bufferResult st.bufferedResults run.sessionId
              ⟨"result", some run.taskId,
               if run.text = "" then "Task completed (no text response)" else run.text,
               false⟩ now
      ∧ lookupA (handleAgent st now p).activeRuns p.runId = none) := by
  refine ⟨?_, ?_, ?_, ?_⟩
  · intro h
    simp [apiSendCatch, h]
  · intro h
    cases hl : lookupA st.sessions sessionId with
    | none => exact ⟨by simp [apiSendCatch, hl], by simp [apiSendCatch, hl]⟩
    | some b =>
      cases b with
      | true => exact absurd hl h
      | false => exact ⟨by simp [apiSendCatch, hl], by simp [apiSendCatch, hl]⟩
  · intro h
    have he := handleAgent_end_live st now p run hp1 hp2 hrid hrun h
    refine ⟨?_, ?_, ?_⟩
    · rw [he]
    · rw [he]
    · rw [he]
      exact lookupA_eraseA_self _ _
  · intro h
    have he := handleAgent_end_offline st now p run hp1 hp2 hrid hrun h
    refine ⟨?_, ?_, ?_⟩
    · rw [he]
    · rw [he]
    · rw [he]
      exact lookupA_eraseA_self _ _

/-- C1, instantiated: a lifecycle end for the tracked run of the live session
`sess_1` sends exactly one result frame, buffers nothing, and deletes the
run. -/
theorem claim_C1_witness :
    (handleAgent c8State 0 ⟨"u1", .lifecycle, none, some "end", none, "s1"⟩).sentFrames
      = c8State.sentFrames ++ [("sess_1",
          ⟨"result", some "task_1",
           if ("" : String) = "" then "Task completed (no text response)" else "",
           false⟩)]
  ∧ (handleAgent c8State 0 ⟨"u1", .lifecycle, none, some "end", none, "s1"⟩).bufferedResults
      = c8State.bufferedResults
  ∧ lookupA (handleAgent c8State 0
      ⟨"u1", .lifecycle, none, some "end", none, "s1"⟩).activeRuns "u1" = none :=
  (claim_C1_thm c8State "req_1" "task_1" "sess_1" "m" 0
    ⟨"u1", .lifecycle, none, some "end", none, "s1"⟩ ⟨"task_1", "sess_1", ""⟩
    rfl rfl (by decide) rfl).2.2.1 rfl

end OpenClawVoice
